import Mathlib

/-!
A shallow embedding of the escape-computer virtual-filesystem game
(the `App` component: command interpreter, path resolution, access
control, discovery tracking, evidence ledger, script engine and
checkpointing), translated from the TypeScript source.

Modelling conventions:
* JS `undefined`-able fields become `Option`; JS truthiness tests on
  strings (`if (x.password)`) become `truthy` (false for `undefined`
  and for the empty string).
* JS `Set<string>` state becomes an insertion-ordered duplicate-free
  `List String` with `setAdd` / `setDel`.
* `setTimeout` continuations become explicit `Pending` values returned
  next to the new state; `firePending` applies a continuation to the
  (possibly different) state present when the timer fires.
* `localStorage` checkpoint writes become a `checkpoint : Option Snapshot`
  field of the game state.  Random transcript-line ids and `alert`
  popups are presentation-only and are omitted.
-/

namespace EscapeGame

inductive FileType where
  | FILE
  | DIRECTORY
deriving DecidableEq

inductive GameState where
  | BOOT
  | PLAYING
  | WIN
  | LOSE
deriving DecidableEq

inductive LineType where
  | input
  | output
  | system
  | monologue
deriving DecidableEq

structure Line where
  type : LineType
  content : String
  path : Option String
deriving DecidableEq

/-- `FileNode` from `types.ts`: name, type, content, children, isHidden,
password, isLocked, isEvidence, scriptAction. -/
inductive FileNode where
  | mk : String → FileType → Option String → Option (List FileNode) →
      Bool → Option String → Bool → Bool → Option String → FileNode

def FileNode.name : FileNode → String
  | .mk n _ _ _ _ _ _ _ _ => n

def FileNode.type : FileNode → FileType
  | .mk _ t _ _ _ _ _ _ _ => t

def FileNode.content : FileNode → Option String
  | .mk _ _ c _ _ _ _ _ _ => c

def FileNode.children : FileNode → Option (List FileNode)
  | .mk _ _ _ ch _ _ _ _ _ => ch

def FileNode.isHidden : FileNode → Bool
  | .mk _ _ _ _ h _ _ _ _ => h

def FileNode.password : FileNode → Option String
  | .mk _ _ _ _ _ pw _ _ _ => pw

def FileNode.isLocked : FileNode → Bool
  | .mk _ _ _ _ _ _ l _ _ => l

def FileNode.isEvidence : FileNode → Bool
  | .mk _ _ _ _ _ _ _ e _ => e

def FileNode.scriptAction : FileNode → Option String
  | .mk _ _ _ _ _ _ _ _ sa => sa

def FileNode.withChildren : Option (List FileNode) → FileNode → FileNode
  | ch, .mk n t c _ h pw l e sa => .mk n t c ch h pw l e sa

def FileNode.withHidden : Bool → FileNode → FileNode
  | h, .mk n t c ch _ pw l e sa => .mk n t c ch h pw l e sa

/-- The `cd` unlock patch `{ isLocked: false, password: undefined }`. -/
def FileNode.clearLock : FileNode → FileNode
  | .mk n t c ch h _ _ e sa => .mk n t c ch h none false e sa

/-- The evidence clone `{ ...fileNode, isEvidence: false }`. -/
def FileNode.withEvidence : Bool → FileNode → FileNode
  | e, .mk n t c ch h pw l _ sa => .mk n t c ch h pw l e sa

/-- JS string truthiness for `Option String` fields: `undefined` and
`""` are falsy. -/
def truthy : Option String → Bool
  | none => false
  | some s => !(s == "")

/-- JS `x || d` on an optional string (`""` also falls back to `d`). -/
def jsOr : Option String → String → String
  | none, d => d
  | some s, d => if s == "" then d else s

/-- JS `Set.add` on an insertion-ordered list without duplicates. -/
def setAdd (l : List String) (x : String) : List String :=
  if l.contains x then l else l ++ [x]

/-- JS `Set.delete`. -/
def setDel (l : List String) (x : String) : List String :=
  l.filter (fun y => !(y == x))

/-- Whether the second char list starts with the first. -/
def charsStartWith : List Char → List Char → Bool
  | [], _ => true
  | _ :: _, [] => false
  | p :: ps, c :: cs => p == c && charsStartWith ps cs

/-- First-occurrence replacement over char lists (left-to-right scan). -/
def replaceFirstChars (pat rep : List Char) : List Char → List Char
  | [] => []
  | c :: cs =>
    if charsStartWith pat (c :: cs) then rep ++ (c :: cs).drop pat.length
    else c :: replaceFirstChars pat rep cs

/-- JS first-occurrence `String.prototype.replace` with plain-string
pattern (Lean's `String.replace` replaces every occurrence). -/
def replaceFirstSub (s pat rep : String) : String :=
  String.mk (replaceFirstChars pat.data rep.data s.data)

/-- JS `String.prototype.split` with a one-char separator. -/
def splitCharAux (sep : Char) (acc : List Char) : List Char → List String
  | [] => [String.mk acc.reverse]
  | c :: rest =>
    if c == sep then String.mk acc.reverse :: splitCharAux sep [] rest
    else splitCharAux sep (c :: acc) rest

def jsSplitChar (sep : Char) (s : String) : List String :=
  splitCharAux sep [] s.data

/-- `findNode` drops a leading `''` (root marker) before walking. -/
def normParts : List String → List String
  | "" :: rest => rest
  | ps => ps

/-- One step of the `findNode` loop: the current node must be a
DIRECTORY with a defined `children` array, and the segment is looked up
with `children.find(c => c.name === part)`. -/
def childNamed (p : String) (n : FileNode) : Option FileNode :=
  match n.type, n.children with
  | .DIRECTORY, some cs => cs.find? (fun c => c.name == p)
  | _, _ => none

/-- The lookup loop of `findNode`. -/
def walk : FileNode → List String → Option FileNode
  | n, [] => some n
  | n, p :: ps => (childNamed p n).bind (fun c => walk c ps)

/-- `findNode(pathParts, root)` from the source. -/
def findNode (pathParts : List String) (root : FileNode) : Option FileNode :=
  if pathParts = [""] then some root
  else walk root (normParts pathParts)

/-- Replace the first child with the given name (the node JS
`Array.prototype.find` returns and `Object.assign` then mutates). -/
def replaceFirstNamed (p : String) (g : FileNode → FileNode) :
    List FileNode → List FileNode
  | [] => []
  | c :: cs => if c.name == p then g c :: cs else c :: replaceFirstNamed p g cs

/-- Apply a patch at the node the `findNode` walk reaches. -/
def walkUpdate : List String → (FileNode → FileNode) → FileNode → FileNode
  | [], f, n => f n
  | p :: ps, f, n =>
    match n.type, n.children with
    | .DIRECTORY, some cs =>
      n.withChildren (some (replaceFirstNamed p (walkUpdate ps f) cs))
    | _, _ => n

/-- The persisted snapshot shape shared by SaveState and Checkpoint. -/
structure Snapshot where
  fileSystem : FileNode
  currentPath : List String
  history : List Line
  discoveredPaths : List String
  evidenceCollected : List String
  gameState : GameState
  bootSequence : List String

structure GameSt where
  fileSystem : FileNode
  currentPath : List String
  history : List Line
  discoveredPaths : List String
  evidenceCollected : List String
  gameState : GameState
  bootSequence : List String
  checkpoint : Option Snapshot

def snapshotOf (s : GameSt) : Snapshot :=
  { fileSystem := s.fileSystem, currentPath := s.currentPath,
    history := s.history, discoveredPaths := s.discoveredPaths,
    evidenceCollected := s.evidenceCollected, gameState := s.gameState,
    bootSequence := s.bootSequence }

/-- `getPathString`: `parts.length === 1 ? '/' : parts.join('/').replace('//','/')`. -/
def getPathString (parts : List String) : String :=
  if parts.length = 1 then "/"
  else replaceFirstSub (String.intercalate "/" parts) "//" "/"

/-- `addToHistory`: input lines record the current path of the state. -/
def addHist (t : LineType) (content : String) (s : GameSt) : GameSt :=
  { s with history := s.history ++
      [{ type := t, content := content,
         path := if t = .input then some (getPathString s.currentPath) else none }] }

/-- `updateFileSystemNode`: no-op when `findNode` fails, otherwise the
patch lands on the node the lookup reaches. -/
def updateFS (pathParts : List String) (f : FileNode → FileNode)
    (s : GameSt) : GameSt :=
  match findNode pathParts s.fileSystem with
  | some _ => { s with fileSystem := walkUpdate (normParts pathParts) f s.fileSystem }
  | none => s

/-- `deleteNode`: filters the named child out of the current directory. -/
def deleteNodeS (name : String) (s : GameSt) : GameSt :=
  match findNode s.currentPath s.fileSystem with
  | some parent =>
    match parent.children with
    | some cs =>
      let kept := cs.filter (fun c => !(c.name == name))
      let fs := walkUpdate (normParts s.currentPath) (FileNode.withChildren (some kept)) s.fileSystem
      { s with fileSystem := fs }
    | none => s
  | none => s

/-- `resolvePath` (never fails; the source's `null` branch is dead code).
An absolute target is split on `/` with empty segments discarded. -/
def resolvePath (target : String) (currentPath : List String) : List String :=
  if target = "/" then [""]
  else if target = ".." then
    (if currentPath.length ≤ 1 then [""] else currentPath.dropLast)
  else if charsStartWith ['/'] target.data then
    [""] ++ (jsSplitChar '/' target).filter (fun p => !(p == ""))
  else currentPath ++ [target]

/-- `saveCheckpoint`: full snapshot with the phase forced to PLAYING. -/
def saveCheckpoint (s : GameSt) : GameSt :=
  { s with checkpoint := some { snapshotOf s with gameState := .PLAYING } }

/-! ## Script engine -/

/-- A scheduled `setTimeout` continuation.  The DISGUISE one carries the
`hasForbidden` / `hasAllRequired` booleans captured at invocation. -/
inductive Pending where
  | alarmResolve
  | crackResolve
  | disguiseResolve (hasForbidden : Bool) (hasAllRequired : Bool)
deriving DecidableEq

def evidenceIntakePath : List String := ["", "home", "user"]

/-- `userFolder?.children?.map(c => c.name) || []`. -/
def disguiseUserFiles (fs : FileNode) : List String :=
  (((findNode evidenceIntakePath fs).bind FileNode.children).getD []).map FileNode.name

def requiredEvidence : List String :=
  ["证据_1.txt", "陈冰-刘青原", "证据_3.txt", "证据_5.txt", "证据_6.txt", "证据_8.txt"]

def forbiddenEvidence : List String :=
  ["证据_4.txt", "证据_7.txt"]

def hasAllRequiredOf (fs : FileNode) : Bool :=
  requiredEvidence.all (fun f => (disguiseUserFiles fs).contains f)

def hasForbiddenOf (fs : FileNode) : Bool :=
  forbiddenEvidence.any (fun f => (disguiseUserFiles fs).contains f)

def incompleteEvidenceMsg : String :=
  "错误：证据收集不完整。检查是否多删了可用的证据碎片。"

def packagingMsg : String := "正在打包并伪装数据..."

def verifyFailMsg : String :=
  "错误：文件校验失败，关键证据丢失或文件不完整。"

def alarmMonologueMsg : String :=
  "（看来没有证据是行不通的，要先收集公司犯罪的证据，找到之后先放在/home/user文件夹下好了，找全之后再打包，我记得公司的数据都放在data文件夹）"

/-- `executeScript(action, args)`.  The DISGUISE branch computes the
required/forbidden membership tests before anything else (they are
pure), bails out with only the incomplete-evidence line when fewer than
6 evidence names were ever collected, and otherwise prints the
packaging line, writes the checkpoint and schedules the resolution
carrying the membership booleans computed at invocation. -/
def executeScript (action : String) (args : List String) (s : GameSt) :
    GameSt × List Pending :=
  if action = "ALARM_SCRIPT" then
    (addHist .system "正在尝试建立外部连接..." s, [.alarmResolve])
  else if action = "CRACK_SCRIPT" then
    (addHist .system "正在破解..." s, [.crackResolve])
  else if action = "DISGUISE_SCRIPT" then
    if s.evidenceCollected.length < 6 then
      (addHist .output incompleteEvidenceMsg s, [])
    else
      (saveCheckpoint (addHist .system packagingMsg s),
       [.disguiseResolve (hasForbiddenOf s.fileSystem) (hasAllRequiredOf s.fileSystem)])
  else (s, [])

/-- What a fired `setTimeout` continuation does to the state present at
firing time (the `alert` popups are presentation-only and omitted). -/
def firePending : Pending → GameSt → GameSt
  | .alarmResolve, s => addHist .monologue alarmMonologueMsg s
  | .crackResolve, s => addHist .system "密钥: fygr5673o" s
  | .disguiseResolve hf har, s =>
    if hf then { s with gameState := .LOSE }
    else if har then { s with gameState := .WIN }
    else addHist .output verifyFailMsg s

/-! ## Command handlers -/

/-- Evidence-collection side effect shared by `cat` and `search`
(lines 348-361 and 403-414 of the source are the same logic). -/
def collectEvidence (fn : FileNode) (s : GameSt) : GameSt :=
  if fn.isEvidence && !(s.evidenceCollected.contains fn.name) then
    let s1 := { s with evidenceCollected := setAdd s.evidenceCollected fn.name }
    let s2 := addHist .system ("证据已收集: " ++ fn.name ++ " 已保存至 /home/user/") s1
    match findNode evidenceIntakePath s2.fileSystem with
    | some homeUser =>
      match homeUser.children with
      | some cs =>
        if (cs.find? (fun c => c.name == fn.name)).isSome then s2
        else updateFS evidenceIntakePath
          (FileNode.withChildren (some (cs ++ [fn.withEvidence false]))) s2
      | none => s2
    | none => s2
  else s

def helpText : String :=
  "可用的指令:
  help                    显示所有可用指令
  ls                      列出当前目录下的所有文件
  cd 文件夹名 密码         进入指定文件夹（如果文件夹被加密，需要输入密码）
  cd ..                   回退到上一级目录
  cat 文件名 密码          查看文件内容（如果文件被加密，需要输入密码）
  search 文件名            查找隐藏文件
  rm 文件名                删除文件（仅在/home/user下生效）
  ./脚本名称.sh            运行脚本文件"

def cmdHelp (s : GameSt) : GameSt :=
  addHist .output helpText s

/-- `ls`: marks the current path discovered, prints visible children,
and is silent when the current node is missing or not a directory. -/
def cmdLs (s : GameSt) : GameSt :=
  match findNode s.currentPath s.fileSystem with
  | some node =>
    if node.type = .DIRECTORY then
      let s1 := { s with discoveredPaths := setAdd s.discoveredPaths (getPathString s.currentPath) }
      let visibleChildren := ((node.children.getD []).filter (fun c => !c.isHidden)).map
        (fun c => if c.type = .DIRECTORY then "[DIR] " ++ c.name else c.name)
      if visibleChildren.isEmpty then addHist .output "(空目录)" s1
      else addHist .output (String.intercalate "\n" visibleChildren) s1
    else s
  | none => s

/-- `cd [target] [secret]`. -/
def cmdCd (args : List String) (s : GameSt) : GameSt :=
  match args.head? with
  | none => { s with currentPath := [""] }
  | some a0 =>
    let targetPath := resolvePath a0 s.currentPath
    match findNode targetPath s.fileSystem with
    | none => addHist .output ("找不到目录: " ++ a0) s
    | some tn =>
      if tn.type ≠ .DIRECTORY then addHist .output ("找不到目录: " ++ a0) s
      else if truthy tn.password then
        (if args.get? 1 = tn.password then
          { updateFS targetPath FileNode.clearLock s with currentPath := targetPath }
        else addHist .output ("访问被拒绝：需要密码才能打开 " ++ tn.name) s)
      else { s with currentPath := targetPath }

/-- The two-stage `cat` lookup: resolved path first, then (when that
yields nothing or a non-FILE node) an exact-name child of the current
directory. -/
def catLookup (a0 : String) (s : GameSt) : Option FileNode :=
  let fallback := (findNode s.currentPath s.fileSystem).bind
    (fun cn => (cn.children.getD []).find? (fun c => c.name == a0))
  match findNode (resolvePath a0 s.currentPath) s.fileSystem with
  | some fn => if fn.type = .FILE then some fn else fallback
  | none => fallback

/-- `cat <name>`.  When the file carries a `scriptAction`, the source's
`executeScript` closes over the render-time React state, so the
evidence-set it reads is the one from before this command's collection
(the tree, mutated in place, is current); the returned state keeps the
collected ledger since `executeScript` never writes it. -/
def cmdCat (args : List String) (s : GameSt) : GameSt × List Pending :=
  match args.head? with
  | none => (addHist .output "Usage: cat <filename>" s, [])
  | some a0 =>
    match catLookup a0 s with
    | none => (addHist .output ("找不到文件: " ++ a0) s, [])
    | some fn =>
      if fn.type ≠ .FILE then (addHist .output ("找不到文件: " ++ a0) s, [])
      else if fn.isHidden then
        (addHist .output ("找不到文件: " ++ a0 ++ " (可能被隐藏)") s, [])
      else
        let s1 := collectEvidence fn s
        if truthy fn.scriptAction then
          let r := executeScript (fn.scriptAction.getD "") args
            { s1 with evidenceCollected := s.evidenceCollected }
          ({ r.1 with evidenceCollected := s1.evidenceCollected }, r.2)
        else (addHist .output (jsOr fn.content "") s1, [])

/-- `search <name>`: exact-name child lookup (hidden or not). The
reveal mutates the found node in place in the source, so the clone a
subsequent evidence collection makes carries `isHidden: false`. -/
def cmdSearch (args : List String) (s : GameSt) : GameSt :=
  match args.head? with
  | none => addHist .output "Usage: search <filename> or search <name1>-<name2>" s
  | some term =>
    let found := (findNode s.currentPath s.fileSystem).bind
      (fun cn => (cn.children.getD []).find? (fun c => c.name == term))
    match found with
    | none => addHist .output "无此名称的隐藏文件" s
    | some fd =>
      if fd.isHidden then
        let childPath := s.currentPath ++ [fd.name]
        let s1 := updateFS childPath (FileNode.withHidden false) s
        let s2 := addHist .system ("找到隐藏文件: " ++ fd.name) s1
        if truthy fd.password then
          addHist .output ("需要密码才能" ++
            (if fd.type = .DIRECTORY then "进入" else "打开") ++ " " ++ fd.name) s2
        else if fd.type = .DIRECTORY then
          addHist .system ("已进入: " ++ fd.name) { s2 with currentPath := childPath }
        else if fd.type = .FILE then
          (if truthy fd.scriptAction then
            addHist .output ("找到脚本文件: " ++ fd.name ++ "\n内容: " ++
              jsOr fd.content "(脚本)" ++ "\n请使用命令 ./" ++ fd.name ++ " 来运行此脚本") s2
          else
            collectEvidence (fd.withHidden false) (addHist .output (jsOr fd.content "") s2))
        else s2
      else addHist .output ("文件 " ++ fd.name ++ " 已存在") s

def rmDeniedMsg : String :=
  "权限被拒绝：rm 命令仅在 /home/user 目录中可用，用于管理证据。"

/-- `rm <name>`: only inside `/home/user`. -/
def cmdRm (args : List String) (s : GameSt) : GameSt :=
  match args.head? with
  | none => addHist .output "Usage: rm <filename>" s
  | some fileName =>
    if getPathString s.currentPath ≠ "/home/user" then addHist .output rmDeniedMsg s
    else
      let fileExists := (findNode s.currentPath s.fileSystem).bind
        (fun cn => (cn.children.getD []).find? (fun c => c.name == fileName))
      match fileExists with
      | some _ =>
        let s1 := deleteNodeS fileName s
        let s2 := if s1.evidenceCollected.contains fileName
                  then { s1 with evidenceCollected := setDel s1.evidenceCollected fileName }
                  else s1
        addHist .output ("File " ++ fileName ++ " deleted.") s2
      | none => addHist .output ("File not found: " ++ fileName) s

/-- The `./伪装.sh` / `./报警.sh` / `./seconddemo.sh` cases. -/
def cmdRunScript (cmd : String) (args : List String) (s : GameSt) :
    GameSt × List Pending :=
  let scriptName := replaceFirstSub cmd "./" ""
  let scriptNode := (findNode s.currentPath s.fileSystem).bind
    (fun cn => (cn.children.getD []).find? (fun c => c.name == scriptName))
  match scriptNode with
  | some sn =>
    if truthy sn.scriptAction then executeScript (sn.scriptAction.getD "") args s
    else (addHist .output ("Script not found: " ++ scriptName) s, [])
  | none => (addHist .output ("Script not found: " ++ scriptName) s, [])

/-- The `switch (cmd)` of `handleCommand`. -/
def dispatch (cmd : String) (args : List String) (s : GameSt) :
    GameSt × List Pending :=
  if cmd = "help" then (cmdHelp s, [])
  else if cmd = "ls" then (cmdLs s, [])
  else if cmd = "cd" then (cmdCd args s, [])
  else if cmd = "cat" then cmdCat args s
  else if cmd = "search" then (cmdSearch args s, [])
  else if cmd = "rm" then (cmdRm args s, [])
  else if cmd = "./伪装.sh" ∨ cmd = "./报警.sh" ∨ cmd = "./seconddemo.sh" then
    cmdRunScript cmd args s
  else (addHist .output ("Command not found: " ++ cmd) s, [])

def isSpaceChar (c : Char) : Bool :=
  c = ' ' ∨ c = '\t' ∨ c = '\n' ∨ c = '\r'

/-- `cmdStr.trim().split(/\s+/)`. -/
def tokenize (s : String) : List String :=
  ((s.trim).split isSpaceChar).filter (fun t => !(t == ""))

/-- `handleCommand`: blank input is a no-op; otherwise the input line is
recorded and the verb dispatched.  (The `passwordPrompt` interception
in the source is dead code: the prompt is never activated.) -/
def handleCommand (cmdStr : String) (s : GameSt) : GameSt × List Pending :=
  if cmdStr.trim = "" then (s, [])
  else
    let s1 := addHist .input cmdStr s
    let parts := tokenize cmdStr
    dispatch (parts.headD "") parts.tail s1

/-! ## Concrete fixtures used to exercise the theorems -/

def mkFile (n c : String) : FileNode :=
  .mk n .FILE (some c) none false none false false none

def mkDir (n : String) (cs : List FileNode) : FileNode :=
  .mk n .DIRECTORY none (some cs) false none false false none

/-- A password-gated directory named `vault`. -/
def wVault : FileNode :=
  .mk "vault" .DIRECTORY none (some [mkFile "v.txt" "inside"]) false (some "pw123") true false none

/-- A hidden evidence file. -/
def wSecret : FileNode :=
  .mk "secret.txt" .FILE (some "EVID") none true none false true none

/-- A visible FILE carrying a password (the `cat` gating claim). -/
def wLocked : FileNode :=
  .mk "locked.txt" .FILE (some "TOP-SECRET") none false (some "pw9") true false none

/-- A hidden, password-free directory. -/
def wHiddenLab : FileNode :=
  .mk "lab" .DIRECTORY none (some []) true none false false none

/-- A hidden script file. -/
def wHiddenScript : FileNode :=
  .mk "伪装.sh" .FILE (some "#!") none true none false false (some "DISGUISE_SCRIPT")

def wUser : FileNode := mkDir "user" []

/-- A hidden directory that is also password-gated. -/
def wHiddenVault : FileNode :=
  .mk "hvault" .DIRECTORY none (some []) true (some "hpw") true false none

def wRoot : FileNode :=
  mkDir "" [wVault, wSecret, wLocked, wHiddenLab, wHiddenScript,
    mkDir "home" [wUser], mkFile "a.txt" "hello", wHiddenVault]

def wState : GameSt :=
  { fileSystem := wRoot, currentPath := [""], history := [],
    discoveredPaths := ["/"], evidenceCollected := [],
    gameState := .PLAYING, bootSequence := [], checkpoint := none }

/-- Evidence-intake directory holding all six required names plus one
forbidden name. -/
def wUserFull : FileNode :=
  mkDir "user" (requiredEvidence.map (fun n => mkFile n "x") ++ [mkFile "证据_4.txt" "x"])

def wStateFull : GameSt :=
  { wState with
    fileSystem := mkDir "" [mkDir "home" [wUserFull]],
    evidenceCollected := ["e1", "e2", "e3", "e4", "e5", "e6"] }

/-- A state sitting inside `/home/user` with a deletable evidence file. -/
def wUserRm : FileNode := mkDir "user" [mkFile "证据_1.txt" "x", mkFile "k.txt" "y"]

def wStateRm : GameSt :=
  { wState with
    fileSystem := mkDir "" [mkDir "home" [wUserRm]],
    currentPath := ["", "home", "user"],
    evidenceCollected := ["证据_1.txt"] }

/-- A state whose current directory `/a` has a subdirectory `b`. -/
def wStateA : GameSt :=
  { wState with
    fileSystem := mkDir "" [mkDir "a" [mkDir "b" []]],
    currentPath := ["", "a"] }

/-! ## Basic lemmas -/

@[simp] theorem withChildren_name (ch : Option (List FileNode)) (n : FileNode) :
    (n.withChildren ch).name = n.name := by cases n; rfl

@[simp] theorem withChildren_type (ch : Option (List FileNode)) (n : FileNode) :
    (n.withChildren ch).type = n.type := by cases n; rfl

@[simp] theorem withChildren_children (ch : Option (List FileNode)) (n : FileNode) :
    (n.withChildren ch).children = ch := by cases n; rfl

@[simp] theorem withHidden_name (b : Bool) (n : FileNode) :
    (n.withHidden b).name = n.name := by cases n; rfl

@[simp] theorem withHidden_isHidden (b : Bool) (n : FileNode) :
    (n.withHidden b).isHidden = b := by cases n; rfl

@[simp] theorem withHidden_type (b : Bool) (n : FileNode) :
    (n.withHidden b).type = n.type := by cases n; rfl

@[simp] theorem withHidden_password (b : Bool) (n : FileNode) :
    (n.withHidden b).password = n.password := by cases n; rfl

@[simp] theorem withHidden_content (b : Bool) (n : FileNode) :
    (n.withHidden b).content = n.content := by cases n; rfl

@[simp] theorem clearLock_name (n : FileNode) :
    n.clearLock.name = n.name := by cases n; rfl

@[simp] theorem clearLock_type (n : FileNode) :
    n.clearLock.type = n.type := by cases n; rfl

@[simp] theorem clearLock_password (n : FileNode) :
    n.clearLock.password = none := by cases n; rfl

@[simp] theorem clearLock_isLocked (n : FileNode) :
    n.clearLock.isLocked = false := by cases n; rfl

@[simp] theorem withEvidence_name (b : Bool) (n : FileNode) :
    (n.withEvidence b).name = n.name := by cases n; rfl

@[simp] theorem withEvidence_isEvidence (b : Bool) (n : FileNode) :
    (n.withEvidence b).isEvidence = b := by cases n; rfl

@[simp] theorem truthy_none : truthy none = false := rfl

theorem contains_iff_mem (l : List String) (x : String) :
    l.contains x = true ↔ x ∈ l := by
  simp [List.contains, List.elem_iff]

theorem mem_setAdd {l : List String} {x q : String} :
    q ∈ setAdd l x ↔ q ∈ l ∨ q = x := by
  unfold setAdd
  by_cases h : l.contains x
  · rw [if_pos h]
    have hx : x ∈ l := (contains_iff_mem l x).1 h
    constructor
    · exact Or.inl
    · rintro (hq | hq)
      · exact hq
      · rw [hq]; exact hx
  · rw [if_neg h]; simp

theorem contains_setAdd_self (l : List String) (x : String) :
    (setAdd l x).contains x = true := by
  have : x ∈ setAdd l x := mem_setAdd.2 (Or.inr rfl)
  exact (contains_iff_mem _ x).2 this

/-! ## State-projection lemmas -/

@[simp] theorem addHist_fileSystem (t c s) :
    (addHist t c s).fileSystem = s.fileSystem := rfl

@[simp] theorem addHist_currentPath (t c s) :
    (addHist t c s).currentPath = s.currentPath := rfl

@[simp] theorem addHist_discoveredPaths (t c s) :
    (addHist t c s).discoveredPaths = s.discoveredPaths := rfl

@[simp] theorem addHist_evidenceCollected (t c s) :
    (addHist t c s).evidenceCollected = s.evidenceCollected := rfl

@[simp] theorem addHist_gameState (t c s) :
    (addHist t c s).gameState = s.gameState := rfl

@[simp] theorem addHist_checkpoint (t c s) :
    (addHist t c s).checkpoint = s.checkpoint := rfl

@[simp] theorem saveCheckpoint_discoveredPaths (s) :
    (saveCheckpoint s).discoveredPaths = s.discoveredPaths := rfl

@[simp] theorem saveCheckpoint_gameState (s) :
    (saveCheckpoint s).gameState = s.gameState := rfl

@[simp] theorem saveCheckpoint_evidenceCollected (s) :
    (saveCheckpoint s).evidenceCollected = s.evidenceCollected := rfl

@[simp] theorem saveCheckpoint_checkpoint (s) :
    (saveCheckpoint s).checkpoint = some { snapshotOf s with gameState := .PLAYING } := rfl

@[simp] theorem updateFS_discoveredPaths (ps f s) :
    (updateFS ps f s).discoveredPaths = s.discoveredPaths := by
  unfold updateFS; split <;> rfl

@[simp] theorem updateFS_currentPath (ps f s) :
    (updateFS ps f s).currentPath = s.currentPath := by
  unfold updateFS; split <;> rfl

@[simp] theorem updateFS_evidenceCollected (ps f s) :
    (updateFS ps f s).evidenceCollected = s.evidenceCollected := by
  unfold updateFS; split <;> rfl

@[simp] theorem deleteNodeS_discoveredPaths (nm s) :
    (deleteNodeS nm s).discoveredPaths = s.discoveredPaths := by
  unfold deleteNodeS; split <;> first | rfl | (split <;> rfl)

@[simp] theorem deleteNodeS_evidenceCollected (nm s) :
    (deleteNodeS nm s).evidenceCollected = s.evidenceCollected := by
  unfold deleteNodeS; split <;> first | rfl | (split <;> rfl)

theorem collectEvidence_discoveredPaths (fn s) :
    (collectEvidence fn s).discoveredPaths = s.discoveredPaths := by
  simp only [collectEvidence]
  split
  · split
    · split
      · split <;> simp
      · simp
    · simp
  · rfl

theorem executeScript_discoveredPaths (a args s) :
    ((executeScript a args s).1).discoveredPaths = s.discoveredPaths := by
  unfold executeScript
  split_ifs <;> simp

theorem collectEvidence_eq_of_not (fn : FileNode) (s : GameSt)
    (h : (fn.isEvidence && !(s.evidenceCollected.contains fn.name)) = false) :
    collectEvidence fn s = s := by
  have h' : ¬ ((fn.isEvidence && !(s.evidenceCollected.contains fn.name)) = true) := by
    rw [h]; exact Bool.false_ne_true
  unfold collectEvidence
  rw [if_neg h']

theorem collectEvidence_ledger_of (fn : FileNode) (s : GameSt)
    (h : (fn.isEvidence && !(s.evidenceCollected.contains fn.name)) = true) :
    (collectEvidence fn s).evidenceCollected = setAdd s.evidenceCollected fn.name := by
  simp only [collectEvidence, h, if_true]
  split
  · split
    · split <;> simp
    · simp
  · simp

/-! ## Tree-update lemmas -/

theorem walk_append (l₁ l₂ : List String) (n : FileNode) :
    walk n (l₁ ++ l₂) = (walk n l₁).bind (fun m => walk m l₂) := by
  induction l₁ generalizing n with
  | nil => simp [walk]
  | cons p ps ih =>
    rw [List.cons_append]
    show (childNamed p n).bind (fun c => walk c (ps ++ l₂)) = _
    cases hc : childNamed p n with
    | none => simp [walk, hc]
    | some c => simp [walk, hc, ih c]

theorem walkUpdate_name (f : FileNode → FileNode)
    (hf : ∀ y, (f y).name = y.name) :
    ∀ (l : List String) (x : FileNode), (walkUpdate l f x).name = x.name := by
  intro l x
  cases l with
  | nil => exact hf x
  | cons p ps =>
    rcases x with ⟨nm, t, c, ch, hh, pw, lk, e, sa⟩
    cases t <;> rcases ch with _ | cs <;>
      simp [walkUpdate, FileNode.type, FileNode.children, FileNode.name,
        FileNode.withChildren]

theorem find?_replaceFirstNamed (p : String) (g : FileNode → FileNode)
    (cs : List FileNode) (c : FileNode)
    (hg : (g c).name = c.name)
    (h : cs.find? (fun x => x.name == p) = some c) :
    (replaceFirstNamed p g cs).find? (fun x => x.name == p) = some (g c) := by
  induction cs with
  | nil => simp [List.find?] at h
  | cons c₀ cs ih =>
    by_cases h₀ : (c₀.name == p) = true
    · rw [@List.find?_cons_of_pos _ (fun x => x.name == p) c₀ cs h₀] at h
      injection h with h; subst h
      unfold replaceFirstNamed
      rw [if_pos h₀]
      have hgp : ((fun x : FileNode => x.name == p) (g c₀)) = true := by
        show ((g c₀).name == p) = true
        rw [hg]; exact h₀
      rw [@List.find?_cons_of_pos _ (fun x => x.name == p) (g c₀) cs hgp]
    · rw [@List.find?_cons_of_neg _ (fun x => x.name == p) c₀ cs h₀] at h
      unfold replaceFirstNamed
      rw [if_neg h₀, @List.find?_cons_of_neg _ (fun x => x.name == p) c₀
        (replaceFirstNamed p g cs) h₀]
      exact ih h

theorem walk_walkUpdate (f : FileNode → FileNode)
    (hf : ∀ y, (f y).name = y.name) :
    ∀ (l : List String) (n m : FileNode), walk n l = some m →
      walk (walkUpdate l f n) l = some (f m) := by
  intro l
  induction l with
  | nil =>
    intro n m h
    simp only [walk] at h ⊢
    injection h with h; subst h; rfl
  | cons p ps ih =>
    intro n m h
    simp only [walk] at h
    cases hc : childNamed p n with
    | none => rw [hc] at h; exact absurd h (by simp)
    | some c0 =>
      rw [hc] at h
      simp only [Option.some_bind] at h
      rcases n with ⟨nm, t, c, ch, hh, pw, lk, e, sa⟩
      cases t <;> rcases ch with _ | cs <;>
        simp only [childNamed, FileNode.type, FileNode.children] at hc
      all_goals try exact Option.noConfusion hc
      -- only the DIRECTORY-with-children case survives
      have hname : (walkUpdate ps f c0).name = c0.name := walkUpdate_name f hf ps c0
      simp only [walkUpdate, FileNode.type, FileNode.children,
        FileNode.withChildren]
      simp only [walk, childNamed, FileNode.type, FileNode.children]
      rw [find?_replaceFirstNamed p (walkUpdate ps f) cs c0 hname hc]
      simp only [Option.some_bind]
      exact ih c0 m h

/-- `findNode` commutes with a name-preserving update along the same path. -/
theorem findNode_walkUpdate (f : FileNode → FileNode)
    (hf : ∀ y, (f y).name = y.name)
    (ps : List String) (root tn : FileNode)
    (h : findNode ps root = some tn) :
    findNode ps (walkUpdate (normParts ps) f root) = some (f tn) := by
  unfold findNode at h ⊢
  by_cases hps : ps = [""]
  · rw [if_pos hps] at h
    injection h with h; subst h
    rw [if_pos hps]
    have : normParts ps = [] := by rw [hps]; rfl
    rw [this]
    rfl
  · rw [if_neg hps] at h
    rw [if_neg hps]
    exact walk_walkUpdate f hf (normParts ps) root tn h

/-- On a successful lookup, `updateFS` rewrites the tree with
`walkUpdate` along the path. -/
theorem updateFS_fileSystem_of_found (ps : List String)
    (f : FileNode → FileNode) (s : GameSt) (tn : FileNode)
    (h : findNode ps s.fileSystem = some tn) :
    (updateFS ps f s).fileSystem = walkUpdate (normParts ps) f s.fileSystem := by
  unfold updateFS
  rw [h]

theorem findNode_cons_empty (t : List String) (root : FileNode) :
    findNode ("" :: t) root = walk root t := by
  cases t with
  | nil => simp [findNode, normParts, walk]
  | cons a l =>
    unfold findNode
    rw [if_neg (by simp)]
    rfl

/-- Extending a successful lookup of a directory by one exact-name
child step. -/
theorem findNode_append_child (cpt : List String) (root cn fd : FileNode)
    (x : String)
    (hcn : findNode ("" :: cpt) root = some cn)
    (hchild : childNamed x cn = some fd) :
    findNode (("" :: cpt) ++ [x]) root = some fd := by
  have h1 : walk root cpt = some cn := by rw [← findNode_cons_empty]; exact hcn
  have h2 : ("" :: cpt) ++ [x] = "" :: (cpt ++ [x]) := rfl
  rw [h2, findNode_cons_empty, walk_append, h1]
  simp [walk, hchild]

theorem dispatch_help (args : List String) (s : GameSt) :
    dispatch "help" args s = (cmdHelp s, []) := rfl

theorem dispatch_ls (args : List String) (s : GameSt) :
    dispatch "ls" args s = (cmdLs s, []) := rfl

theorem dispatch_cd (args : List String) (s : GameSt) :
    dispatch "cd" args s = (cmdCd args s, []) := rfl

theorem dispatch_cat (args : List String) (s : GameSt) :
    dispatch "cat" args s = cmdCat args s := rfl

theorem dispatch_search (args : List String) (s : GameSt) :
    dispatch "search" args s = (cmdSearch args s, []) := rfl

theorem dispatch_rm (args : List String) (s : GameSt) :
    dispatch "rm" args s = (cmdRm args s, []) := rfl

/-! ## Claims -/

/-- C1: the DISGUISE script with ledger count < 6 only prints the
incomplete-evidence line (no checkpoint write, no phase change, no
scheduled resolution); with count ≥ 6 it prints the packaging line and
writes a checkpoint whose phase is forced to PLAYING before the delayed
resolution, and the fired resolution moves the phase to LOSE when any
forbidden name is present in `/home/user` (taking precedence), else to
WIN when all required names are present, else prints the
verification-failure line and leaves the phase unchanged. -/
theorem disguise_script_spec (args : List String) (s : GameSt) :
    (s.evidenceCollected.length < 6 →
      executeScript "DISGUISE_SCRIPT" args s =
        (addHist .output incompleteEvidenceMsg s, []) ∧
      (executeScript "DISGUISE_SCRIPT" args s).1.checkpoint = s.checkpoint ∧
      (executeScript "DISGUISE_SCRIPT" args s).1.gameState = s.gameState)
    ∧ (6 ≤ s.evidenceCollected.length →
      executeScript "DISGUISE_SCRIPT" args s =
        (saveCheckpoint (addHist .system packagingMsg s),
          [.disguiseResolve (hasForbiddenOf s.fileSystem) (hasAllRequiredOf s.fileSystem)]) ∧
      (executeScript "DISGUISE_SCRIPT" args s).1.checkpoint =
        some { snapshotOf (addHist .system packagingMsg s) with gameState := .PLAYING } ∧
      (∀ s' : GameSt,
        firePending
            (.disguiseResolve (hasForbiddenOf s.fileSystem) (hasAllRequiredOf s.fileSystem)) s' =
          (if hasForbiddenOf s.fileSystem then { s' with gameState := .LOSE }
           else if hasAllRequiredOf s.fileSystem then { s' with gameState := .WIN }
           else addHist .output verifyFailMsg s')) ∧
      (hasForbiddenOf s.fileSystem = false → hasAllRequiredOf s.fileSystem = false →
        ∀ s' : GameSt,
          (firePending (.disguiseResolve false false) s').gameState = s'.gameState)) := by
  constructor
  · intro h
    refine ⟨?_, ?_, ?_⟩ <;> simp [executeScript, h]
  · intro h
    have h' : ¬ s.evidenceCollected.length < 6 := by omega
    refine ⟨?_, ?_, fun s' => rfl, fun _ _ s' => ?_⟩
    · simp [executeScript, h']
    · simp [executeScript, h']
    · simp [firePending]

theorem disguise_script_spec_witness :
    (wState.evidenceCollected.length < 6 ∧
      executeScript "DISGUISE_SCRIPT" [] wState =
        (addHist .output incompleteEvidenceMsg wState, []))
    ∧ (6 ≤ wStateFull.evidenceCollected.length ∧
      executeScript "DISGUISE_SCRIPT" [] wStateFull =
        (saveCheckpoint (addHist .system packagingMsg wStateFull),
          [.disguiseResolve true true])) := by
  constructor
  · exact ⟨by decide, ((disguise_script_spec [] wState).1 (by decide)).1⟩
  · refine ⟨by decide, ?_⟩
    have h := ((disguise_script_spec [] wStateFull).2 (by decide)).1
    have hf : hasForbiddenOf wStateFull.fileSystem = true := by decide
    have ha : hasAllRequiredOf wStateFull.fileSystem = true := by decide
    rw [hf, ha] at h
    exact h

/-- C10: the win/lose decision of the DISGUISE script is fixed at
invocation time — the scheduled continuation carries the membership
booleans computed from the tree as it was when the script ran, and the
branch it takes when fired does not depend on the state present at
firing time. -/
theorem disguise_outcome_fixed (args : List String) (s : GameSt) (p : Pending)
    (hp : p ∈ (executeScript "DISGUISE_SCRIPT" args s).2) (s' : GameSt) :
    p = .disguiseResolve (hasForbiddenOf s.fileSystem) (hasAllRequiredOf s.fileSystem) ∧
    firePending p s' =
      (if hasForbiddenOf s.fileSystem then { s' with gameState := .LOSE }
       else if hasAllRequiredOf s.fileSystem then { s' with gameState := .WIN }
       else addHist .output verifyFailMsg s') := by
  by_cases h : s.evidenceCollected.length < 6
  · simp [executeScript, h] at hp
  · simp [executeScript, h] at hp
    subst hp
    exact ⟨rfl, rfl⟩

theorem disguise_outcome_fixed_witness :
    Pending.disguiseResolve true true ∈ (executeScript "DISGUISE_SCRIPT" [] wStateFull).2 ∧
    firePending (.disguiseResolve true true) wState = { wState with gameState := .LOSE } := by
  have hmem : Pending.disguiseResolve true true ∈
      (executeScript "DISGUISE_SCRIPT" [] wStateFull).2 := by decide
  have h := disguise_outcome_fixed [] wStateFull (.disguiseResolve true true) hmem wState
  refine ⟨hmem, ?_⟩
  have hf : hasForbiddenOf wStateFull.fileSystem = true := by decide
  have h2 := h.2
  rw [hf] at h2
  simpa using h2

/-- C3 (code bug in the source): `cat` on a visible FILE that carries a
non-empty `password` prints its content anyway — the handler never
consults the `password` field, contradicting the FileNode declaration
comment ("If set, requires password to enter/read") and the in-game
help text for `cat`. -/
theorem cat_ignores_file_password :
    truthy wLocked.password = true ∧
    dispatch "cat" ["locked.txt"] wState =
      (addHist .output "TOP-SECRET" wState, []) := by
  exact ⟨rfl, rfl⟩

/-- C9: `cd` never consults `isHidden` — a hidden, password-free
directory is entered exactly like a visible one. -/
theorem cd_ignores_hidden (s : GameSt) (a0 : String) (rest : List String)
    (tn : FileNode)
    (hfind : findNode (resolvePath a0 s.currentPath) s.fileSystem = some tn)
    (hdir : tn.type = .DIRECTORY)
    (hpw : truthy tn.password = false)
    (hhid : tn.isHidden = true) :
    dispatch "cd" (a0 :: rest) s =
      ({ s with currentPath := resolvePath a0 s.currentPath }, []) := by
  rw [dispatch_cd]
  simp only [cmdCd, List.head?, hfind, hpw]
  simp [hdir]

/-- C2: for a directory gated by password `P`, `cd` with a wrong (or
missing) secret reports access-denied, changes nothing; `cd` with the
right secret moves the current path there and clears the node's
`password`/`isLocked` for good, so that any later `cd` resolving to the
same path succeeds with no secret at all. -/
theorem cd_password_gating (s : GameSt) (a0 : String) (rest : List String)
    (tn : FileNode) (P : String)
    (hfind : findNode (resolvePath a0 s.currentPath) s.fileSystem = some tn)
    (hdir : tn.type = .DIRECTORY)
    (hpw : tn.password = some P) (hP : P ≠ "") :
    (rest.head? ≠ some P →
      dispatch "cd" (a0 :: rest) s =
        (addHist .output ("访问被拒绝：需要密码才能打开 " ++ tn.name) s, []))
    ∧ (rest.head? = some P →
      dispatch "cd" (a0 :: rest) s =
        ({ updateFS (resolvePath a0 s.currentPath) FileNode.clearLock s with
            currentPath := resolvePath a0 s.currentPath }, []) ∧
      findNode (resolvePath a0 s.currentPath)
          (updateFS (resolvePath a0 s.currentPath) FileNode.clearLock s).fileSystem =
        some tn.clearLock ∧
      tn.clearLock.password = none ∧ tn.clearLock.isLocked = false ∧
      (∀ (s₂ : GameSt) (b : String) (rest₂ : List String),
        s₂.fileSystem =
            (updateFS (resolvePath a0 s.currentPath) FileNode.clearLock s).fileSystem →
        resolvePath b s₂.currentPath = resolvePath a0 s.currentPath →
        dispatch "cd" (b :: rest₂) s₂ =
          ({ s₂ with currentPath := resolvePath a0 s.currentPath }, []))) := by
  have htr : truthy tn.password = true := by
    rw [hpw]; simp [truthy, hP]
  have hgetsec : ∀ r : List String, (a0 :: r).get? 1 = r.head? := by
    intro r; cases r <;> rfl
  have hfound' : findNode (resolvePath a0 s.currentPath)
      (updateFS (resolvePath a0 s.currentPath) FileNode.clearLock s).fileSystem =
      some tn.clearLock := by
    rw [updateFS_fileSystem_of_found _ _ _ _ hfind]
    exact findNode_walkUpdate FileNode.clearLock (fun y => clearLock_name y) _ _ _ hfind
  constructor
  · intro hsec
    rw [dispatch_cd]
    simp only [cmdCd, List.head?_cons, hfind, htr, hgetsec]
    have hne : ¬ ((rest.head? = tn.password)) := by rw [hpw]; exact hsec
    simp [hdir, hne]
  · intro hsec
    refine ⟨?_, hfound', by simp, by simp, ?_⟩
    · rw [dispatch_cd]
      simp only [cmdCd, List.head?_cons, hfind, htr, hgetsec]
      have heq : rest.head? = tn.password := by rw [hpw]; exact hsec
      simp [hdir, heq]
    · intro s₂ b rest₂ hfs hres
      rw [dispatch_cd]
      have hfind₂ : findNode (resolvePath b s₂.currentPath) s₂.fileSystem =
          some tn.clearLock := by rw [hres, hfs]; exact hfound'
      simp only [cmdCd, List.head?_cons, hfind₂]
      have hd₂ : tn.clearLock.type = FileType.DIRECTORY := by
        rw [clearLock_type]; exact hdir
      have hp₂ : truthy tn.clearLock.password = false := by
        rw [clearLock_password]; rfl
      simp [hd₂, hp₂, hres]

theorem cd_password_gating_witness :
    (dispatch "cd" ["vault", "nope"] wState =
      (addHist .output "访问被拒绝：需要密码才能打开 vault" wState, []))
    ∧ (dispatch "cd" ["vault", "pw123"] wState =
      ({ updateFS ["", "vault"] FileNode.clearLock wState with
          currentPath := ["", "vault"] }, []))
    ∧ (∀ s₂ : GameSt,
        s₂.fileSystem = (updateFS ["", "vault"] FileNode.clearLock wState).fileSystem →
        resolvePath "vault" s₂.currentPath = ["", "vault"] →
        dispatch "cd" ["vault"] s₂ = ({ s₂ with currentPath := ["", "vault"] }, [])) := by
  have h := cd_password_gating wState "vault" ["pw123"] wVault "pw123"
    rfl rfl rfl (by decide)
  have hw := cd_password_gating wState "vault" ["nope"] wVault "pw123"
    rfl rfl rfl (by decide)
  refine ⟨hw.1 (by decide), (h.2 rfl).1, ?_⟩
  intro s₂ hfs hres
  exact (h.2 rfl).2.2.2.2 s₂ "vault" [] hfs hres

theorem cd_ignores_hidden_witness :
    wHiddenLab.isHidden = true ∧
    dispatch "cd" ["lab"] wState =
      ({ wState with currentPath := ["", "lab"] }, []) := by
  refine ⟨rfl, ?_⟩
  exact cd_ignores_hidden wState "lab" [] wHiddenLab rfl rfl rfl rfl

/-- C8: `cat` reports a not-found message (never an access-denied one)
both when no FILE node is found for the argument and when the found
node is hidden; in either case the state only gains that one output
line — no content is printed and no evidence is collected. -/
theorem cat_notfound_and_hidden (s : GameSt) (a0 : String) (rest : List String) :
    (catLookup a0 s = none →
      dispatch "cat" (a0 :: rest) s = (addHist .output ("找不到文件: " ++ a0) s, []))
    ∧ (∀ fn, catLookup a0 s = some fn → fn.type ≠ .FILE →
      dispatch "cat" (a0 :: rest) s = (addHist .output ("找不到文件: " ++ a0) s, []))
    ∧ (∀ fn, catLookup a0 s = some fn → fn.type = .FILE → fn.isHidden = true →
      dispatch "cat" (a0 :: rest) s =
        (addHist .output ("找不到文件: " ++ a0 ++ " (可能被隐藏)") s, [])) := by
  refine ⟨?_, ?_, ?_⟩
  · intro h
    rw [dispatch_cat]
    simp [cmdCat, h]
  · intro fn h hty
    rw [dispatch_cat]
    simp [cmdCat, h, hty]
  · intro fn h hty hhid
    rw [dispatch_cat]
    simp [cmdCat, h, hty, hhid]

theorem cat_notfound_and_hidden_witness :
    (catLookup "nope.txt" wState = none ∧
      dispatch "cat" ["nope.txt"] wState =
        (addHist .output "找不到文件: nope.txt" wState, []))
    ∧ (catLookup "secret.txt" wState = some wSecret ∧
      dispatch "cat" ["secret.txt"] wState =
        (addHist .output "找不到文件: secret.txt (可能被隐藏)" wState, [])) := by
  constructor
  · exact ⟨rfl, (cat_notfound_and_hidden wState "nope.txt" []).1 rfl⟩
  · exact ⟨rfl, (cat_notfound_and_hidden wState "secret.txt" []).2.2 wSecret rfl rfl rfl⟩

/-- C6: `rm <name>` outside `/home/user` always fails with the
access-denied line, whatever the name; inside `/home/user` it deletes
the named child (the directory keeps exactly its other children) and
drops the name from the evidence ledger when present, and reports
File-not-found when no such child exists. -/
theorem rm_spec (s : GameSt) (nm : String) (rest : List String) :
    (getPathString s.currentPath ≠ "/home/user" →
      dispatch "rm" (nm :: rest) s = (addHist .output rmDeniedMsg s, []))
    ∧ (getPathString s.currentPath = "/home/user" →
      (∀ cn fd, findNode s.currentPath s.fileSystem = some cn →
        (cn.children.getD []).find? (fun c => c.name == nm) = some fd →
        dispatch "rm" (nm :: rest) s =
          (addHist .output ("File " ++ nm ++ " deleted.")
            (if (deleteNodeS nm s).evidenceCollected.contains nm
             then { deleteNodeS nm s with
                    evidenceCollected := setDel (deleteNodeS nm s).evidenceCollected nm }
             else deleteNodeS nm s), []) ∧
        (∀ cs, cn.children = some cs →
          findNode s.currentPath (deleteNodeS nm s).fileSystem =
            some (cn.withChildren (some (cs.filter (fun c => !(c.name == nm)))))))
      ∧ ((findNode s.currentPath s.fileSystem).bind
            (fun cn => (cn.children.getD []).find? (fun c => c.name == nm)) = none →
        dispatch "rm" (nm :: rest) s =
          (addHist .output ("File not found: " ++ nm) s, []))) := by
  constructor
  · intro h
    rw [dispatch_rm]
    simp [cmdRm, h]
  · intro h
    constructor
    · intro cn fd hcn hfd
      have hch : ∃ cs, cn.children = some cs := by
        cases hc : cn.children with
        | none => rw [hc] at hfd; simp at hfd
        | some cs => exact ⟨cs, rfl⟩
      constructor
      · rw [dispatch_rm]
        simp only [cmdRm, List.head?_cons, h]
        simp [hcn, hfd]
      · intro cs hcs
        have hdel : (deleteNodeS nm s).fileSystem =
            walkUpdate (normParts s.currentPath)
              (FileNode.withChildren (some (cs.filter (fun c => !(c.name == nm)))))
              s.fileSystem := by
          unfold deleteNodeS
          rw [hcn]
          dsimp only
          rw [hcs]
        rw [hdel]
        exact findNode_walkUpdate _ (fun y => withChildren_name _ y) _ _ _ hcn
    · intro hnone
      rw [dispatch_rm]
      simp only [cmdRm, List.head?_cons, h]
      simp [hnone]

theorem rm_spec_witness :
    (dispatch "rm" ["证据_1.txt"] wState = (addHist .output rmDeniedMsg wState, []))
    ∧ (dispatch "rm" ["证据_1.txt"] wStateRm =
        (addHist .output "File 证据_1.txt deleted."
          { deleteNodeS "证据_1.txt" wStateRm with evidenceCollected := [] }, []))
    ∧ (dispatch "rm" ["nope.txt"] wStateRm =
        (addHist .output "File not found: nope.txt" wStateRm, [])) := by
  refine ⟨(rm_spec wState "证据_1.txt" []).1 (by decide), ?_, ?_⟩
  · have h := (((rm_spec wStateRm "证据_1.txt" []).2 rfl).1 wUserRm
      (mkFile "证据_1.txt" "x") rfl rfl).1
    have hc : (deleteNodeS "证据_1.txt" wStateRm).evidenceCollected.contains "证据_1.txt" = true := by
      decide
    rw [if_pos hc] at h
    have hd : setDel (deleteNodeS "证据_1.txt" wStateRm).evidenceCollected "证据_1.txt" =
        ([] : List String) := by decide
    rw [hd] at h
    exact h
  · exact ((rm_spec wStateRm "nope.txt" []).2 rfl).2 rfl

/-- C4: evidence collection is idempotent — re-collecting a name is a
strict no-op, and the first collection from a clean state records the
name exactly once in the ledger and clones the node (with `isEvidence`
cleared) exactly once into `/home/user`. -/
theorem evidence_collection_idempotent :
    (∀ (fn : FileNode) (s : GameSt),
      collectEvidence fn (collectEvidence fn s) = collectEvidence fn s)
    ∧ (∀ (fn : FileNode) (s : GameSt) (hu : FileNode) (cs : List FileNode),
      fn.isEvidence = true →
      s.evidenceCollected.contains fn.name = false →
      findNode evidenceIntakePath s.fileSystem = some hu →
      hu.children = some cs →
      cs.find? (fun c => c.name == fn.name) = none →
      (collectEvidence fn s).evidenceCollected = s.evidenceCollected ++ [fn.name] ∧
      (collectEvidence fn s).evidenceCollected.count fn.name = 1 ∧
      findNode evidenceIntakePath (collectEvidence fn s).fileSystem =
        some (hu.withChildren (some (cs ++ [fn.withEvidence false]))) ∧
      (cs ++ [fn.withEvidence false]).countP (fun c => c.name == fn.name) = 1 ∧
      (fn.withEvidence false).isEvidence = false) := by
  constructor
  · intro fn s
    by_cases hc : (fn.isEvidence && !(s.evidenceCollected.contains fn.name)) = true
    · apply collectEvidence_eq_of_not
      rw [collectEvidence_ledger_of fn s hc, contains_setAdd_self]
      simp
    · have hc' : (fn.isEvidence && !(s.evidenceCollected.contains fn.name)) = false := by
        revert hc; cases fn.isEvidence && !(s.evidenceCollected.contains fn.name) <;> simp
      rw [collectEvidence_eq_of_not _ _ hc']
      exact collectEvidence_eq_of_not _ _ hc'
  · intro fn s hu cs hev hcont hfind hcs hnone
    have hcond : (fn.isEvidence && !(s.evidenceCollected.contains fn.name)) = true := by
      rw [hev, hcont]; rfl
    have hnot : fn.name ∉ s.evidenceCollected := by
      intro hmem
      rw [(contains_iff_mem _ _).2 hmem] at hcont
      exact Bool.noConfusion hcont
    have hledger : (collectEvidence fn s).evidenceCollected =
        s.evidenceCollected ++ [fn.name] := by
      rw [collectEvidence_ledger_of fn s hcond]
      unfold setAdd
      rw [if_neg (by simp [hnot])]
    refine ⟨hledger, ?_, ?_, ?_, by simp⟩
    · rw [hledger, List.count_append, List.count_eq_zero.2 hnot,
        List.count_cons_self, List.count_nil]
    · have hfs : (collectEvidence fn s).fileSystem =
          walkUpdate (normParts evidenceIntakePath)
            (FileNode.withChildren (some (cs ++ [fn.withEvidence false])))
            s.fileSystem := by
        simp only [collectEvidence, hcond, if_true]
        simp only [addHist_fileSystem, hfind, hcs, hnone, Option.isSome_none,
          Bool.false_eq_true, if_false]
        simp [updateFS, hfind]
      rw [hfs]
      exact findNode_walkUpdate _ (fun y => withChildren_name _ y) _ _ _ hfind
    · rw [List.countP_append]
      have h0 : cs.countP (fun c => c.name == fn.name) = 0 :=
        List.countP_eq_zero.2 (by
          intro a ha
          have := List.find?_eq_none.1 hnone a ha
          simpa using this)
      rw [h0]
      simp

theorem evidence_collection_idempotent_witness :
    (collectEvidence wSecret (collectEvidence wSecret wState) =
      collectEvidence wSecret wState)
    ∧ ((collectEvidence wSecret wState).evidenceCollected = ["secret.txt"] ∧
      findNode evidenceIntakePath (collectEvidence wSecret wState).fileSystem =
        some (wUser.withChildren (some [wSecret.withEvidence false]))) := by
  refine ⟨evidence_collection_idempotent.1 wSecret wState, ?_, ?_⟩
  · exact (evidence_collection_idempotent.2 wSecret wState wUser [] rfl rfl rfl rfl rfl).1
  · exact (evidence_collection_idempotent.2 wSecret wState wUser [] rfl rfl rfl rfl rfl).2.2.1

theorem cmdCd_dp (args : List String) (s : GameSt) :
    (cmdCd args s).discoveredPaths = s.discoveredPaths := by
  unfold cmdCd
  cases args with
  | nil => rfl
  | cons a0 rest =>
    simp only [List.head?_cons]
    cases h : findNode (resolvePath a0 s.currentPath) s.fileSystem with
    | none => simp
    | some tn => dsimp only; split_ifs <;> simp

theorem cmdCat_dp (args : List String) (s : GameSt) :
    (cmdCat args s).1.discoveredPaths = s.discoveredPaths := by
  unfold cmdCat
  cases args with
  | nil => rfl
  | cons a0 rest =>
    simp only [List.head?_cons]
    cases h : catLookup a0 s with
    | none => simp
    | some fn =>
      dsimp only
      split_ifs <;>
        simp [executeScript_discoveredPaths, collectEvidence_discoveredPaths]

theorem cmdSearch_dp (args : List String) (s : GameSt) :
    (cmdSearch args s).discoveredPaths = s.discoveredPaths := by
  unfold cmdSearch
  cases args with
  | nil => rfl
  | cons term rest =>
    simp only [List.head?_cons]
    cases h : (findNode s.currentPath s.fileSystem).bind
        (fun cn => (cn.children.getD []).find? (fun c => c.name == term)) with
    | none => simp
    | some fd =>
      dsimp only
      split_ifs <;>
        simp [collectEvidence_discoveredPaths, updateFS_discoveredPaths]

theorem cmdRm_dp (args : List String) (s : GameSt) :
    (cmdRm args s).discoveredPaths = s.discoveredPaths := by
  unfold cmdRm
  cases args with
  | nil => rfl
  | cons nm rest =>
    simp only [List.head?_cons]
    by_cases h : getPathString s.currentPath ≠ "/home/user"
    · simp [h]
    · rw [if_neg h]
      split
      · split_ifs <;> simp [deleteNodeS_discoveredPaths]
      · simp

theorem cmdRunScript_dp (cmd : String) (args : List String) (s : GameSt) :
    (cmdRunScript cmd args s).1.discoveredPaths = s.discoveredPaths := by
  unfold cmdRunScript
  dsimp only
  split
  · split_ifs <;> simp [executeScript_discoveredPaths]
  · simp

theorem cmdLs_dp_of_dir (s : GameSt) (n : FileNode)
    (hn : findNode s.currentPath s.fileSystem = some n)
    (hdir : n.type = .DIRECTORY) :
    (cmdLs s).discoveredPaths = setAdd s.discoveredPaths (getPathString s.currentPath) := by
  unfold cmdLs
  rw [hn]
  simp only [hdir]
  split_ifs <;> simp

theorem cmdLs_dp_cases (s : GameSt) :
    (cmdLs s).discoveredPaths = s.discoveredPaths ∨
    (cmdLs s).discoveredPaths = setAdd s.discoveredPaths (getPathString s.currentPath) := by
  unfold cmdLs
  cases h : findNode s.currentPath s.fileSystem with
  | none => exact Or.inl rfl
  | some n =>
    by_cases hd : n.type = FileType.DIRECTORY
    · right
      simp only [hd]
      split_ifs <;> simp
    · left
      simp [hd]

/-- C5: the DiscoveredPaths set is written only by `ls`, which adds
exactly the current directory's rendered path when the current node is
a directory; no other command (and no fired script continuation)
touches it, so a child directory stays undiscovered until `ls` is run
inside it. -/
theorem discovery_only_by_list (cmd : String) (args : List String) (s : GameSt) :
    (cmd ≠ "ls" → (dispatch cmd args s).1.discoveredPaths = s.discoveredPaths)
    ∧ (∀ n, findNode s.currentPath s.fileSystem = some n → n.type = .DIRECTORY →
        (dispatch "ls" args s).1.discoveredPaths =
          setAdd s.discoveredPaths (getPathString s.currentPath))
    ∧ (∀ q, q ∈ (dispatch cmd args s).1.discoveredPaths →
        q ∈ s.discoveredPaths ∨ q = getPathString s.currentPath)
    ∧ (∀ p : Pending, (firePending p s).discoveredPaths = s.discoveredPaths) := by
  have hmain : (dispatch cmd args s).1.discoveredPaths = s.discoveredPaths ∨
      (cmd = "ls" ∧ ((dispatch cmd args s).1.discoveredPaths = s.discoveredPaths ∨
        (dispatch cmd args s).1.discoveredPaths =
          setAdd s.discoveredPaths (getPathString s.currentPath))) := by
    unfold dispatch
    split_ifs with h1 h2 h3 h4 h5 h6 h7
    · exact Or.inl rfl
    · exact Or.inr ⟨h2, cmdLs_dp_cases s⟩
    · exact Or.inl (cmdCd_dp args s)
    · exact Or.inl (cmdCat_dp args s)
    · exact Or.inl (cmdSearch_dp args s)
    · exact Or.inl (cmdRm_dp args s)
    · exact Or.inl (cmdRunScript_dp cmd args s)
    · exact Or.inl rfl
  refine ⟨?_, ?_, ?_, ?_⟩
  · intro hne
    rcases hmain with h | ⟨hls, _⟩
    · exact h
    · exact absurd hls hne
  · intro n hn hd
    rw [dispatch_ls]
    exact cmdLs_dp_of_dir s n hn hd
  · intro q hq
    rcases hmain with h | ⟨_, h | h⟩
    · rw [h] at hq; exact Or.inl hq
    · rw [h] at hq; exact Or.inl hq
    · rw [h] at hq; exact mem_setAdd.1 hq
  · intro p
    cases p with
    | alarmResolve => rfl
    | crackResolve => rfl
    | disguiseResolve hf har =>
      simp only [firePending]
      split_ifs <;> rfl

theorem discovery_only_by_list_witness :
    ((dispatch "cd" ["b"] wStateA).1.discoveredPaths = wStateA.discoveredPaths)
    ∧ ((dispatch "ls" [] wStateA).1.discoveredPaths = ["/", "/a"])
    ∧ ("/a/b" ∉ (dispatch "ls" [] wStateA).1.discoveredPaths) := by
  have h := discovery_only_by_list "cd" ["b"] wStateA
  have hls := discovery_only_by_list "ls" [] wStateA
  refine ⟨h.1 (by decide), ?_, ?_⟩
  · have := hls.2.1 (mkDir "a" [mkDir "b" []]) rfl rfl
    rw [this]
    rfl
  · intro hq
    rcases hls.2.2.1 "/a/b" hq with hmem | heq
    · revert hmem; decide
    · revert heq; decide

/-- C7: `search` on an exact-name child of the current directory: a
hidden match is revealed permanently (its `isHidden` flag cleared in
the tree) and then auto-acted on — password-gated: only an
access-required hint, no entering/opening; directory: the current path
moves into it; FILE with a script action: only a run-it-yourself hint,
nothing executed; plain FILE: its content is printed and the same
evidence collection as `read` runs.  A visible match reports
already-exists; no match reports no-such-hidden-file. -/
theorem search_spec (s : GameSt) (term : String) (rest : List String)
    (cpt : List String) (hcp : s.currentPath = "" :: cpt) :
    ((findNode s.currentPath s.fileSystem).bind
        (fun cn => (cn.children.getD []).find? (fun c => c.name == term)) = none →
      dispatch "search" (term :: rest) s =
        (addHist .output "无此名称的隐藏文件" s, []))
    ∧ (∀ fd, (findNode s.currentPath s.fileSystem).bind
        (fun cn => (cn.children.getD []).find? (fun c => c.name == term)) = some fd →
      fd.isHidden = false →
      dispatch "search" (term :: rest) s =
        (addHist .output ("文件 " ++ fd.name ++ " 已存在") s, []))
    ∧ (∀ cn fd, findNode s.currentPath s.fileSystem = some cn →
      cn.type = .DIRECTORY →
      (cn.children.getD []).find? (fun c => c.name == term) = some fd →
      fd.isHidden = true →
      (findNode (s.currentPath ++ [fd.name])
          (updateFS (s.currentPath ++ [fd.name]) (FileNode.withHidden false) s).fileSystem =
        some (fd.withHidden false))
      ∧ (truthy fd.password = true →
        dispatch "search" (term :: rest) s =
          (addHist .output ("需要密码才能" ++
              (if fd.type = .DIRECTORY then "进入" else "打开") ++ " " ++ fd.name)
            (addHist .system ("找到隐藏文件: " ++ fd.name)
              (updateFS (s.currentPath ++ [fd.name]) (FileNode.withHidden false) s)), []) ∧
        (dispatch "search" (term :: rest) s).1.currentPath = s.currentPath)
      ∧ (truthy fd.password = false → fd.type = .DIRECTORY →
        dispatch "search" (term :: rest) s =
          (addHist .system ("已进入: " ++ fd.name)
            { addHist .system ("找到隐藏文件: " ++ fd.name)
                (updateFS (s.currentPath ++ [fd.name]) (FileNode.withHidden false) s) with
              currentPath := s.currentPath ++ [fd.name] }, []) ∧
        (dispatch "search" (term :: rest) s).1.currentPath = s.currentPath ++ [fd.name])
      ∧ (truthy fd.password = false → fd.type = .FILE → truthy fd.scriptAction = true →
        dispatch "search" (term :: rest) s =
          (addHist .output ("找到脚本文件: " ++ fd.name ++ "\n内容: " ++
              jsOr fd.content "(脚本)" ++ "\n请使用命令 ./" ++ fd.name ++ " 来运行此脚本")
            (addHist .system ("找到隐藏文件: " ++ fd.name)
              (updateFS (s.currentPath ++ [fd.name]) (FileNode.withHidden false) s)), []) ∧
        (dispatch "search" (term :: rest) s).1.evidenceCollected = s.evidenceCollected)
      ∧ (truthy fd.password = false → fd.type = .FILE → truthy fd.scriptAction = false →
        dispatch "search" (term :: rest) s =
          (collectEvidence (fd.withHidden false)
            (addHist .output (jsOr fd.content "")
              (addHist .system ("找到隐藏文件: " ++ fd.name)
                (updateFS (s.currentPath ++ [fd.name]) (FileNode.withHidden false) s))), []))) := by
  refine ⟨?_, ?_, ?_⟩
  · intro h
    rw [dispatch_search]
    simp only [cmdSearch, List.head?_cons]
    simp [h]
  · intro fd h hhid
    rw [dispatch_search]
    simp only [cmdSearch, List.head?_cons]
    simp [h, hhid]
  · intro cn fd hcn hdir hfd hhid
    have hbeq : (fd.name == term) = true := by
      have := List.find?_some hfd
      simpa using this
    have hname : fd.name = term := by simpa using hbeq
    have hchex : ∃ cs, cn.children = some cs := by
      cases hc : cn.children with
      | none => rw [hc] at hfd; simp at hfd
      | some cs => exact ⟨cs, rfl⟩
    obtain ⟨cs, hcs⟩ := hchex
    have hfd' : cs.find? (fun c => c.name == term) = some fd := by
      rw [hcs] at hfd
      simpa using hfd
    have hchildNamed : childNamed fd.name cn = some fd := by
      rcases cn with ⟨nm2, t2, c2, ch2, hh2, pw2, lk2, e2, sa2⟩
      simp only [FileNode.type] at hdir
      simp only [FileNode.children] at hcs
      subst hdir
      subst hcs
      simp only [childNamed, FileNode.type, FileNode.children]
      rw [hname]
      exact hfd'
    have hcn' : findNode ("" :: cpt) s.fileSystem = some cn := by
      rw [← hcp]; exact hcn
    have hchild : findNode (s.currentPath ++ [fd.name]) s.fileSystem = some fd := by
      rw [hcp]
      exact findNode_append_child cpt _ cn fd fd.name hcn' hchildNamed
    have hfs1 : (updateFS (s.currentPath ++ [fd.name]) (FileNode.withHidden false) s).fileSystem =
        walkUpdate (normParts (s.currentPath ++ [fd.name])) (FileNode.withHidden false)
          s.fileSystem :=
      updateFS_fileSystem_of_found _ _ _ _ hchild
    have hreveal : findNode (s.currentPath ++ [fd.name])
        (updateFS (s.currentPath ++ [fd.name]) (FileNode.withHidden false) s).fileSystem =
        some (fd.withHidden false) := by
      rw [hfs1]
      exact findNode_walkUpdate _ (fun y => withHidden_name _ y) _ _ _ hchild
    have hbind : (findNode s.currentPath s.fileSystem).bind
        (fun cn => (cn.children.getD []).find? (fun c => c.name == term)) = some fd := by
      rw [hcn]
      simpa [hcs] using hfd
    refine ⟨hreveal, ?_, ?_, ?_, ?_⟩
    · intro htr
      have hmain : dispatch "search" (term :: rest) s =
          (addHist .output ("需要密码才能" ++
              (if fd.type = .DIRECTORY then "进入" else "打开") ++ " " ++ fd.name)
            (addHist .system ("找到隐藏文件: " ++ fd.name)
              (updateFS (s.currentPath ++ [fd.name]) (FileNode.withHidden false) s)), []) := by
        rw [dispatch_search]
        simp only [cmdSearch, List.head?_cons]
        simp [hbind, hhid, htr]
      refine ⟨hmain, ?_⟩
      rw [hmain]
      simp
    · intro htr hty
      have hmain : dispatch "search" (term :: rest) s =
          (addHist .system ("已进入: " ++ fd.name)
            { addHist .system ("找到隐藏文件: " ++ fd.name)
                (updateFS (s.currentPath ++ [fd.name]) (FileNode.withHidden false) s) with
              currentPath := s.currentPath ++ [fd.name] }, []) := by
        rw [dispatch_search]
        simp only [cmdSearch, List.head?_cons]
        simp [hbind, hhid, htr, hty]
      refine ⟨hmain, ?_⟩
      rw [hmain]
      simp [addHist]
    · intro htr hty hsc
      have hmain : dispatch "search" (term :: rest) s =
          (addHist .output ("找到脚本文件: " ++ fd.name ++ "\n内容: " ++
              jsOr fd.content "(脚本)" ++ "\n请使用命令 ./" ++ fd.name ++ " 来运行此脚本")
            (addHist .system ("找到隐藏文件: " ++ fd.name)
              (updateFS (s.currentPath ++ [fd.name]) (FileNode.withHidden false) s)), []) := by
        rw [dispatch_search]
        simp only [cmdSearch, List.head?_cons]
        have hty' : (fd.type = FileType.DIRECTORY) = False := by
          simp [hty]
        simp [hbind, hhid, htr, hty, hty', hsc]
      refine ⟨hmain, ?_⟩
      rw [hmain]
      simp
    · intro htr hty hsc
      rw [dispatch_search]
      simp only [cmdSearch, List.head?_cons]
      have hty' : (fd.type = FileType.DIRECTORY) = False := by
        simp [hty]
      simp [hbind, hhid, htr, hty, hty', hsc]

theorem search_spec_witness :
    (dispatch "search" ["zzz"] wState = (addHist .output "无此名称的隐藏文件" wState, []))
    ∧ (dispatch "search" ["a.txt"] wState = (addHist .output "文件 a.txt 已存在" wState, []))
    ∧ ((dispatch "search" ["lab"] wState).1.currentPath = ["", "lab"])
    ∧ (dispatch "search" ["hvault"] wState =
        (addHist .output "需要密码才能进入 hvault"
          (addHist .system "找到隐藏文件: hvault"
            (updateFS ["", "hvault"] (FileNode.withHidden false) wState)), []))
    ∧ (dispatch "search" ["伪装.sh"] wState =
        (addHist .output "找到脚本文件: 伪装.sh\n内容: #!\n请使用命令 ./伪装.sh 来运行此脚本"
          (addHist .system "找到隐藏文件: 伪装.sh"
            (updateFS ["", "伪装.sh"] (FileNode.withHidden false) wState)), []))
    ∧ (dispatch "search" ["secret.txt"] wState =
        (collectEvidence (wSecret.withHidden false)
          (addHist .output "EVID"
            (addHist .system "找到隐藏文件: secret.txt"
              (updateFS ["", "secret.txt"] (FileNode.withHidden false) wState))), [])) := by
  refine ⟨?_, ?_, ?_, ?_, ?_, ?_⟩
  · exact (search_spec wState "zzz" [] [] rfl).1 rfl
  · exact (search_spec wState "a.txt" [] [] rfl).2.1 (mkFile "a.txt" "hello") rfl rfl
  · exact (((search_spec wState "lab" [] [] rfl).2.2 wRoot wHiddenLab
      rfl rfl rfl rfl).2.2.1 rfl rfl).2
  · exact (((search_spec wState "hvault" [] [] rfl).2.2 wRoot wHiddenVault
      rfl rfl rfl rfl).2.1 rfl).1
  · exact (((search_spec wState "伪装.sh" [] [] rfl).2.2 wRoot wHiddenScript
      rfl rfl rfl rfl).2.2.2.1 rfl rfl rfl).1
  · exact ((search_spec wState "secret.txt" [] [] rfl).2.2 wRoot wSecret
      rfl rfl rfl rfl).2.2.2.2 rfl rfl rfl

end EscapeGame
